import Mathlib

/-!
# Verification of the label-rendering engine (`label.py`)

This file gives a shallow embedding of the layout/composition engine of the
repository: the `Canvas` drawing surface, the widget layout protocol, the
`Horizontal` and `Vertical` containers, the `Label` root widget, the
`QRCode`/`SVG` layout contracts, and the `px` unit conversion.

Modelling conventions, matching the Python source:

* A 1-bit canvas pixel holds `WHITE = 1` (paper) or `BLACK = 0` (ink),
  the constants of the source.
* `PixMap` is the pixel buffer of an image; a widget `render` receives the
  canvas it must draw on (the Python code hands the child an `ImageDraw`
  over a freshly created image) and returns the new contents of that same
  image.  In Python a render mutates the image in place, so it can never
  change the image's size; returning only the pixel buffer makes the same
  true here by construction.
* Python integers are embedded as `ℤ` where the source can produce negative
  values (desired widths, `spare_width`, `flexible_child_width`), and as `ℕ`
  for actual image dimensions (PIL images always have non-negative size).
  `int(a / b)` on Python ints (float division then truncation toward zero)
  is embedded as `Int.tdiv`; for the concrete magnitudes exercised here the
  float division is exact enough that the truncation agrees with exact
  rational truncation.
* Fallible operations return `Except RenderErr _`.  `RenderErr.divByZero`
  is Python's `ZeroDivisionError` (raised by `int(width / len(children))`
  when `children` is empty) and `RenderErr.badSize` is PIL's `ValueError`
  for `Image.new` with a negative dimension.  `Image.paste` out of the
  destination bounds clips silently in PIL, and so does `pasteAt` here.
  One approximation: when a Python render raises after having already drawn
  on the caller's canvas (e.g. `Label.render` draws its markers before
  `Image.new` can fail), the partial mutation is discarded by the `Except`
  embedding; no claim observes that partial state.
* The renders of the leaf widgets `Text`, `QRCode` and `SVG` call external
  libraries (font shaping, barcode generation, SVG rasterisation), which the
  specification places out of scope; only their `layout` contracts are
  embedded.  Container children are therefore modelled as `WidgetI`, a pair
  of a `layout` function and a `render` function, over which the container
  theorems quantify.
-/

/-- Pixel value for paper, `WHITE = 1` in the source. -/
def WHITE : ℕ := 1

/-- Pixel value for ink, `BLACK = 0` in the source. -/
def BLACK : ℕ := 0

/-- DPI constant of the source. -/
def DPI : ℕ := 180

/-- Pixel buffer of an image: the color at each (x, y). -/
abbrev PixMap := ℕ → ℕ → ℕ

/-- A PIL image: a size together with its pixel buffer. -/
structure Canvas where
  width : ℕ
  height : ℕ
  pix : PixMap

/-- Embeds `Image.new(mode, (w, h), fill)`: every pixel set to `fill`. -/
def Canvas.new (w h fill : ℕ) : Canvas := ⟨w, h, fun _ _ => fill⟩

/-- Embeds `dst.paste(src, (ox, oy))`: overwrite the rectangle of `dst`
starting at `(ox, oy)` with the contents of `src`.  As in PIL, the part of
the rectangle outside the destination simply does not exist (reads are only
meaningful inside the destination bounds), so out-of-range pastes clip. -/
def pasteAt (dst : PixMap) (src : Canvas) (ox oy : ℕ) : PixMap :=
  fun x y =>
    if ox ≤ x ∧ x < ox + src.width ∧ oy ≤ y ∧ y < oy + src.height then
      src.pix (x - ox) (y - oy)
    else dst x y

/-- Embeds `draw.line([(x, y0), (x, y1)], fill=col)` for a vertical segment:
PIL draws the segment including both endpoints. -/
def Canvas.vline (c : Canvas) (x y0 y1 col : ℕ) : Canvas :=
  { c with pix := fun a b => if a = x ∧ y0 ≤ b ∧ b ≤ y1 then col else c.pix a b }

/-- Errors a render can raise: Python's `ZeroDivisionError` from
`int(size / len(children))` on an empty children list, and PIL's
`ValueError` from `Image.new` with a negative dimension. -/
inductive RenderErr where
  | divByZero : RenderErr
  | badSize : RenderErr
deriving DecidableEq, Repr

/-- The widget interface seen by a container: `layout(width, height)`
returning a desired size, and `render` producing the new pixel contents of
the canvas it is handed.  The base class `Widget` has
`layout(w, h) = (w, h)` and a no-op render. -/
structure WidgetI where
  layout : ℤ → ℤ → ℤ × ℤ
  render : Canvas → Except RenderErr PixMap

/-- The base `Widget` behaviour: `layout` echoes the offer (hence the widget
is always classified flexible) and `render` draws nothing. -/
def Widget.base : WidgetI := ⟨fun w h => (w, h), fun c => .ok c.pix⟩

/- ### QRCode and SVG layout contracts (source lines 121–160) -/

/-- The `QRCode` widget configuration (`data`, `padding`). -/
structure QRCode where
  data : String
  padding : ℤ

/-- Embeds `QRCode.layout(self, _width, height) = (height, height)`:
the offered width and the padding are ignored. -/
def QRCode.layout (_q : QRCode) (_width height : ℤ) : ℤ × ℤ := (height, height)

/-- The `SVG` widget configuration (`src`, `padding`). -/
structure SVG where
  src : String
  padding : ℤ

/-- Embeds `SVG.layout(self, _width, height) = (height, height)`:
the offered width and the padding are ignored. -/
def SVG.layout (_s : SVG) (_width height : ℤ) : ℤ × ℤ := (height, height)

/- ### Horizontal container (source lines 63–91) -/

/-- The `Horizontal` container: a sequence of children. -/
structure Horizontal where
  children : List WidgetI

/-- Embeds `offered_child_width = int(width / len(self.children))`. -/
def Horizontal.offeredChildWidth (W N : ℕ) : ℤ := Int.tdiv (W : ℤ) (N : ℤ)

/-- Loop body of the first pass of `Horizontal.render`: the accumulator is
`(spare_width, num_flexible)`; a child whose desired width equals the offer
bumps `num_flexible`, any other child has its desired width subtracted from
`spare_width`. -/
def Horizontal.classify (offered Hz : ℤ) (sn : ℤ × ℕ) (ch : WidgetI) : ℤ × ℕ :=
  if (ch.layout offered Hz).fst = offered then (sn.fst, sn.snd + 1)
  else (sn.fst - (ch.layout offered Hz).fst, sn.snd)

/-- Embeds the first loop of `Horizontal.render`, starting from
`spare_width = width` and `num_flexible = 0`. -/
def Horizontal.firstPass (children : List WidgetI) (offered : ℤ) (H : ℕ)
    (W : ℕ) : ℤ × ℕ :=
  children.foldl (Horizontal.classify offered (H : ℤ)) ((W : ℤ), 0)

/-- Embeds the computation of `flexible_child_width`: the offer when no
child is flexible, else `int(spare_width / num_flexible)` (Python `int()`
of a float quotient truncates toward zero, i.e. `Int.tdiv`). -/
def Horizontal.negotiate (children : List WidgetI) (W H : ℕ) : ℤ :=
  let offered := Horizontal.offeredChildWidth W children.length
  let sn := Horizontal.firstPass children offered H W
  if sn.snd = 0 then offered else Int.tdiv sn.fst (sn.snd : ℤ)

/-- Embeds the second loop of `Horizontal.render`: for each child in order,
measure it at the flexible width, create a fresh white sub-canvas of exactly
that measured size (PIL raises on a negative dimension), render the child
into it, paste the result at the running x cursor, and advance the cursor
by the child's width. -/
def Horizontal.secondPass (flexW : ℤ) (H : ℕ) :
    List WidgetI → ℕ → PixMap → Except RenderErr PixMap
  | [], _, pm => .ok pm
  | ch :: rest, x, pm =>
    if 0 ≤ (ch.layout flexW (H : ℤ)).fst ∧ 0 ≤ (ch.layout flexW (H : ℤ)).snd then
      match ch.render (Canvas.new (ch.layout flexW (H : ℤ)).fst.toNat
          (ch.layout flexW (H : ℤ)).snd.toNat WHITE) with
      | .error e => .error e
      | .ok spm =>
          Horizontal.secondPass flexW H rest (x + (ch.layout flexW (H : ℤ)).fst.toNat)
            (pasteAt pm ⟨(ch.layout flexW (H : ℤ)).fst.toNat,
              (ch.layout flexW (H : ℤ)).snd.toNat, spm⟩ x 0)
    else .error .badSize

/-- Embeds `Horizontal.render`: the division
`int(width / len(self.children))` raises `ZeroDivisionError` on an empty
children list; otherwise the two negotiation passes run as in the source. -/
def Horizontal.render (self : Horizontal) (c : Canvas) :
    Except RenderErr PixMap :=
  if self.children.length = 0 then .error .divByZero
  else
    Horizontal.secondPass (Horizontal.negotiate self.children c.width c.height)
      c.height self.children 0 c.pix

/-- Observation of the second-pass allocation: the width each child is
granted, namely the first component of `layout(flexible_child_width, H)`.
These are exactly the widths of the pasted sub-canvases in
`Horizontal.secondPass`. -/
def Horizontal.allocWidths (children : List WidgetI) (W H : ℕ) : List ℤ :=
  children.map fun ch => (ch.layout (Horizontal.negotiate children W H) (H : ℤ)).fst

/- ### Vertical container (source lines 94–106) -/

/-- The `Vertical` container: a sequence of children. -/
structure Vertical where
  children : List WidgetI

/-- Embeds `child_height = int(height / len(self.children))` (both
operands are non-negative, so truncation is floor division on `ℕ`). -/
def Vertical.childHeight (H N : ℕ) : ℕ := H / N

/-- Embeds the loop of `Vertical.render`: child `i` is rendered into a
fresh white canvas of size `(width, child_height)` and pasted at
`(0, i * child_height)`. -/
def Vertical.loop (W chH : ℕ) :
    List WidgetI → ℕ → PixMap → Except RenderErr PixMap
  | [], _, pm => .ok pm
  | ch :: rest, i, pm =>
    match ch.render (Canvas.new W chH WHITE) with
    | .error e => .error e
    | .ok spm =>
        Vertical.loop W chH rest (i + 1) (pasteAt pm ⟨W, chH, spm⟩ 0 (i * chH))

/-- Embeds `Vertical.render`: `ZeroDivisionError` on an empty children
list, else the loop above. -/
def Vertical.render (self : Vertical) (c : Canvas) : Except RenderErr PixMap :=
  if self.children.length = 0 then .error .divByZero
  else
    Vertical.loop c.width (Vertical.childHeight c.height self.children.length)
      self.children 0 c.pix

/- ### Label root widget (source lines 44–60) -/

/-- The `Label` root widget: a size and a single child. -/
structure Label where
  width : ℕ
  height : ℕ
  child : WidgetI

/-- Start rows of the marker segments: `range(0, height, 8)`. -/
def tickYs (h : ℕ) : List ℕ := (List.range ((h + 7) / 8)).map (fun k => k * 8)

/-- Embeds the marker loop of `Label.render`: for `x` in
`[0, width - 1]` and `y` in `range(0, height, 8)`, draw the vertical
segment from `(x, y)` to `(x, y + 4)` in `BLACK` (PIL includes both
endpoints, so each segment inks five pixels). -/
def drawMarkers (c : Canvas) (w h : ℕ) : Canvas :=
  ([0, w - 1] : List ℕ).foldl
    (fun acc x => (tickYs h).foldl (fun acc2 y0 => acc2.vline x y0 (y0 + 4) BLACK) acc)
    c

/-- Embeds `Label.render`: draw the markers, create a fresh white canvas of
size `(width - 2, height)` (PIL raises when `width < 2` makes that negative),
render the child into it, and paste the result at `(1, 0)`. -/
def Label.render (self : Label) (c : Canvas) : Except RenderErr PixMap :=
  let marked := drawMarkers c self.width self.height
  if self.width < 2 then .error .badSize
  else
    match self.child.render (Canvas.new (self.width - 2) self.height WHITE) with
    | .error e => .error e
    | .ok pm => .ok (pasteAt marked.pix ⟨self.width - 2, self.height, pm⟩ 1 0)

/- ### Unit conversion (source lines 21–22) -/

/-- Embeds `px(l) = int(DPI * l * 0.03937007874015748)`, with the decimal
literal taken as the exact rational `3937007874015748 / 10^17`.  For the
integral millimetre lengths at issue the float product is several orders of
magnitude away from an integer, so Python's float evaluation and this exact
evaluation truncate to the same value. -/
def px (l : ℕ) : ℕ := DPI * l * 3937007874015748 / 100000000000000000

/-- Spec-side conversion, from the specification's words: `pixels =
round(DPI * millimeters / 25.4)`, rounding to the nearest integer. -/
def pxSpecRound (l : ℕ) : ℤ := round ((DPI * l : ℚ) / (254 / 10))

/- ### Spec-side recipes for the refinement claims -/

/-- Spec-side first phase of the Horizontal algorithm, written from the
claim's words, parameterised by the integer division used for
`spareWidth / numFlexible`: the children's desired widths under the offer
`⌊W / N⌋`, the flexible ones being those desiring exactly the offer, the
others having their desires subtracted from a spare width starting at `W`. -/
def recipeFlexWidth (idiv : ℤ → ℤ → ℤ) (children : List WidgetI)
    (W H : ℕ) : ℤ :=
  let N := children.length
  let offered := idiv (W : ℤ) (N : ℤ)
  let desires := children.map fun ch => (ch.layout offered (H : ℤ)).fst
  let numFlex := (desires.filter fun d => d = offered).length
  let spare := (W : ℤ) - (desires.filter fun d => d ≠ offered).sum
  if numFlex = 0 then offered else idiv spare (numFlex : ℤ)

/-- Spec-side second phase, first half: every child is laid out a second
time at the flexible width and rendered into a fresh sub-canvas of exactly
its second-pass size, collecting each child's `(width, height, pixels)`. -/
def recipeCollect (flexW : ℤ) (H : ℕ) :
    List WidgetI → Except RenderErr (List (ℕ × ℕ × PixMap))
  | [] => .ok []
  | ch :: rest =>
    if 0 ≤ (ch.layout flexW (H : ℤ)).fst ∧ 0 ≤ (ch.layout flexW (H : ℤ)).snd then
      match ch.render (Canvas.new (ch.layout flexW (H : ℤ)).fst.toNat
          (ch.layout flexW (H : ℤ)).snd.toNat WHITE) with
      | .error e => .error e
      | .ok spm =>
          (recipeCollect flexW H rest).map
            fun ts => ((ch.layout flexW (H : ℤ)).fst.toNat,
              (ch.layout flexW (H : ℤ)).snd.toNat, spm) :: ts
    else .error .badSize

/-- Spec-side second phase, second half: the rendered sub-canvases are
pasted left-to-right at a cumulative x cursor that advances by each child's
width. -/
def recipePasteRow : PixMap → ℕ → List (ℕ × ℕ × PixMap) → PixMap
  | pm, _, [] => pm
  | pm, x, (w, h, spm) :: rest =>
      recipePasteRow (pasteAt pm ⟨w, h, spm⟩ x 0) (x + w) rest

/-- Spec-side Horizontal rendering recipe, from the words of the claim,
parameterised by the integer division (the claim states `floor`, the code
uses Python `int()` truncation). -/
def recipeRender (idiv : ℤ → ℤ → ℤ) (children : List WidgetI) (c : Canvas) :
    Except RenderErr PixMap :=
  if children.length = 0 then .error .divByZero
  else
    (recipeCollect (recipeFlexWidth idiv children c.width c.height)
        c.height children).map
      fun ts => recipePasteRow c.pix 0 ts

/-- Spec-side Vertical recipe, first half: every child receives a fresh
white sub-canvas of size `(W, ⌊H / N⌋)`, with no flexible/fixed
negotiation, collecting the rendered pixel buffers in order. -/
def recipeCollectV (W chH : ℕ) :
    List WidgetI → Except RenderErr (List PixMap)
  | [] => .ok []
  | ch :: rest =>
    match ch.render (Canvas.new W chH WHITE) with
    | .error e => .error e
    | .ok pm => (recipeCollectV W chH rest).map fun pms => pm :: pms

/-- Spec-side Vertical recipe, second half: the sub-canvas of child `i` is
pasted at vertical offset `i * ⌊H / N⌋`, top to bottom with no gap. -/
def recipePasteColumn (W chH : ℕ) : PixMap → ℕ → List PixMap → PixMap
  | pm, _, [] => pm
  | pm, i, spm :: rest =>
      recipePasteColumn W chH (pasteAt pm ⟨W, chH, spm⟩ 0 (i * chH)) (i + 1) rest

/-- Spec-side Vertical rendering recipe, from the words of the claim. -/
def recipeRenderV (children : List WidgetI) (c : Canvas) :
    Except RenderErr PixMap :=
  if children.length = 0 then .error .divByZero
  else
    (recipeCollectV c.width (Vertical.childHeight c.height children.length)
        children).map
      fun pms =>
        recipePasteColumn c.width (Vertical.childHeight c.height children.length)
          c.pix 0 pms

/- ### Concrete widgets used in examples, witnesses and counterexamples -/

/-- A child with a fixed intrinsic width of 20 pixels (its render draws
nothing; only the layout contract matters to the container). -/
def fixedTwenty : WidgetI := ⟨fun _ h => (20, h), fun c => .ok c.pix⟩

/-- A flexible child: its layout echoes the offer, its render draws
nothing (the behaviour the base `Widget` class and `Text` both have for
layout). -/
def flexChild : WidgetI := ⟨fun w h => (w, h), fun c => .ok c.pix⟩

/-- A child with the `QRCode`/`SVG` layout contract `(h, h)` and an
abstracted no-op render. -/
def squareChild : WidgetI := ⟨fun _ h => (h, h), fun c => .ok c.pix⟩

/-- A child whose desired width is one more than the offer: classified as
fixed in the first pass, it answers differently when re-measured at the
flexible width in the second pass. -/
def growChild : WidgetI := ⟨fun w h => (w + 1, h), fun c => .ok c.pix⟩

/-- A child with a fixed intrinsic width of 12 pixels. -/
def fixedTwelve : WidgetI := ⟨fun _ h => (12, h), fun c => .ok c.pix⟩

/- ### Helper lemmas -/

/-- The classification fold of `Horizontal.firstPass`, characterised: it
subtracts all non-flexible desired widths from the spare accumulator and
counts the flexible children. -/
theorem foldl_classify (offered Hz : ℤ) :
    ∀ (L : List WidgetI) (s : ℤ) (n : ℕ),
      L.foldl (Horizontal.classify offered Hz) (s, n)
      = (s - ((L.map fun ch => (ch.layout offered Hz).fst).filter
                fun d => d ≠ offered).sum,
         n + ((L.map fun ch => (ch.layout offered Hz).fst).filter
                fun d => d = offered).length)
  | [], s, n => by simp
  | ch :: L, s, n => by
    rw [List.foldl_cons]
    by_cases hd : (ch.layout offered Hz).fst = offered
    · rw [show Horizontal.classify offered Hz (s, n) ch = (s, n + 1) from by
        unfold Horizontal.classify; rw [if_pos hd]]
      rw [foldl_classify offered Hz L s (n + 1)]
      simp [hd]
      omega
    · rw [show Horizontal.classify offered Hz (s, n) ch
          = (s - (ch.layout offered Hz).fst, n) from by
        unfold Horizontal.classify; rw [if_neg hd]]
      rw [foldl_classify offered Hz L (s - (ch.layout offered Hz).fst) n]
      simp [hd, sub_sub]

/-- The flexible width computed by the source equals the one of the
claim's recipe when the recipe is read with truncating division. -/
theorem negotiate_eq_recipe (children : List WidgetI) (W H : ℕ) :
    Horizontal.negotiate children W H = recipeFlexWidth Int.tdiv children W H := by
  simp only [Horizontal.negotiate, recipeFlexWidth, Horizontal.firstPass,
    Horizontal.offeredChildWidth, foldl_classify]
  simp

/-- The second-pass loop of the source equals the claim's recipe phase:
collecting every child's second-pass size and rendered sub-canvas in order,
then pasting them left-to-right at the cumulative x cursor. -/
theorem secondPass_eq_collect (flexW : ℤ) (H : ℕ) :
    ∀ (L : List WidgetI) (x : ℕ) (pm : PixMap),
      Horizontal.secondPass flexW H L x pm
        = (recipeCollect flexW H L).map fun ts => recipePasteRow pm x ts
  | [], x, pm => by
    simp [Horizontal.secondPass, recipeCollect, recipePasteRow, Except.map]
  | ch :: L, x, pm => by
    unfold Horizontal.secondPass recipeCollect
    by_cases hsz : 0 ≤ (ch.layout flexW (H : ℤ)).fst ∧ 0 ≤ (ch.layout flexW (H : ℤ)).snd
    · rw [if_pos hsz, if_pos hsz]
      cases hr : ch.render (Canvas.new (ch.layout flexW (H : ℤ)).fst.toNat
          (ch.layout flexW (H : ℤ)).snd.toNat WHITE) with
      | error e => simp [Except.map]
      | ok spm =>
        have hrec := secondPass_eq_collect flexW H L
          (x + (ch.layout flexW (H : ℤ)).fst.toNat)
          (pasteAt pm ⟨(ch.layout flexW (H : ℤ)).fst.toNat,
            (ch.layout flexW (H : ℤ)).snd.toNat, spm⟩ x 0)
        cases hcol : recipeCollect flexW H L with
        | error e =>
          rw [hcol] at hrec
          simp [Except.map, hrec]
        | ok ts =>
          rw [hcol] at hrec
          simp [Except.map, hrec, recipePasteRow]
    · rw [if_neg hsz, if_neg hsz]
      simp [Except.map]

/-- The loop of `Vertical.render` equals the claim's recipe: collect the
rendered sub-canvases in order, then paste the sub-canvas of child `i` at
vertical offset `i * child_height`. -/
theorem vloop_eq_collect (W chH : ℕ) :
    ∀ (L : List WidgetI) (i : ℕ) (pm : PixMap),
      Vertical.loop W chH L i pm
        = (recipeCollectV W chH L).map fun pms => recipePasteColumn W chH pm i pms
  | [], i, pm => by
    simp [Vertical.loop, recipeCollectV, recipePasteColumn, Except.map]
  | ch :: L, i, pm => by
    unfold Vertical.loop recipeCollectV
    cases hr : ch.render (Canvas.new W chH WHITE) with
    | error e => simp [Except.map]
    | ok spm =>
      have hrec := vloop_eq_collect W chH L (i + 1)
        (pasteAt pm ⟨W, chH, spm⟩ 0 (i * chH))
      cases hcol : recipeCollectV W chH L with
      | error e =>
        rw [hcol] at hrec
        simp [Except.map, hrec]
      | ok pms =>
        rw [hcol] at hrec
        simp [Except.map, hrec, recipePasteColumn]

/-- When every child is flexible under the offer, the negotiated flexible
width is the offer itself: the spare width stays at `W`, all `N` children
count as flexible, and `int(W / N)` equals the offer. -/
theorem negotiate_all_flex (children : List WidgetI) (W H : ℕ)
    (hne : children ≠ [])
    (hflex : ∀ ch ∈ children,
      (ch.layout (Horizontal.offeredChildWidth W children.length) (H : ℤ)).fst
        = Horizontal.offeredChildWidth W children.length) :
    Horizontal.negotiate children W H
      = Horizontal.offeredChildWidth W children.length := by
  simp only [Horizontal.negotiate, Horizontal.firstPass, foldl_classify]
  have h1 : ((children.map fun ch =>
      (ch.layout (Horizontal.offeredChildWidth W children.length) (H : ℤ)).fst).filter
        fun d => d ≠ Horizontal.offeredChildWidth W children.length) = [] := by
    rw [List.filter_eq_nil_iff]
    intro d hd
    obtain ⟨ch, hch, rfl⟩ := List.mem_map.mp hd
    simp [hflex ch hch]
  have h2 : ((children.map fun ch =>
      (ch.layout (Horizontal.offeredChildWidth W children.length) (H : ℤ)).fst).filter
        fun d => d = Horizontal.offeredChildWidth W children.length)
      = children.map fun ch =>
          (ch.layout (Horizontal.offeredChildWidth W children.length) (H : ℤ)).fst := by
    rw [List.filter_eq_self]
    intro d hd
    obtain ⟨ch, hch, rfl⟩ := List.mem_map.mp hd
    simp [hflex ch hch]
  rw [h1, h2]
  have hN : children.length ≠ 0 := fun h => hne (List.length_eq_zero.mp h)
  simp only [List.sum_nil, sub_zero, List.length_map, Nat.zero_add]
  rw [if_neg hN]
  rfl

/-- Pixel-level effect of folding vertical tick segments down one column:
a pixel turns `BLACK` exactly when it sits in column `x0` and inside one of
the five-pixel segments `[y0, y0 + 4]`. -/
theorem foldl_vline_pix (x0 : ℕ) :
    ∀ (L : List ℕ) (c : Canvas) (x y : ℕ),
      ((L.foldl (fun acc y0 => acc.vline x0 y0 (y0 + 4) BLACK) c)).pix x y
        = if x = x0 ∧ ∃ y0 ∈ L, y0 ≤ y ∧ y ≤ y0 + 4 then BLACK else c.pix x y
  | [], c, x, y => by simp
  | a :: L, c, x, y => by
    rw [List.foldl_cons, foldl_vline_pix x0 L (c.vline x0 a (a + 4) BLACK) x y]
    by_cases hx : x = x0
    · subst hx
      by_cases htail : ∃ y0 ∈ L, y0 ≤ y ∧ y ≤ y0 + 4
      · rw [if_pos ⟨rfl, htail⟩]
        obtain ⟨y0, hy0, hp⟩ := htail
        rw [if_pos ⟨rfl, y0, List.mem_cons_of_mem a hy0, hp⟩]
      · rw [if_neg (fun hc => htail hc.2)]
        by_cases hhead : a ≤ y ∧ y ≤ a + 4
        · rw [if_pos ⟨rfl, a, List.mem_cons_self a L, hhead⟩]
          simp [Canvas.vline, hhead.1, hhead.2]
        · rw [if_neg ?hcons]
          case hcons =>
            rintro ⟨-, y0, hy0, hp⟩
            rcases List.mem_cons.mp hy0 with rfl | hmem
            exacts [hhead hp, htail ⟨y0, hmem, hp⟩]
          simp only [Canvas.vline]
          rw [if_neg (fun hc => hhead ⟨hc.2.1, hc.2.2⟩)]
    · rw [if_neg (fun hc => hx hc.1), if_neg (fun hc => hx hc.1)]
      simp only [Canvas.vline]
      rw [if_neg (fun hc => hx hc.1)]

/-- Pixel-level effect of the marker loop of `Label.render`: a pixel turns
`BLACK` exactly when it is in one of the two edge columns and inside one of
the tick segments. -/
theorem drawMarkers_pix (c : Canvas) (w h x y : ℕ) :
    (drawMarkers c w h).pix x y
      = if (x = 0 ∨ x = w - 1) ∧ ∃ y0 ∈ tickYs h, y0 ≤ y ∧ y ≤ y0 + 4 then BLACK
        else c.pix x y := by
  unfold drawMarkers
  rw [List.foldl_cons, List.foldl_cons, List.foldl_nil]
  rw [foldl_vline_pix, foldl_vline_pix]
  by_cases hhit : ∃ y0 ∈ tickYs h, y0 ≤ y ∧ y ≤ y0 + 4
  · by_cases h1 : x = w - 1
    · rw [if_pos ⟨h1, hhit⟩, if_pos ⟨Or.inr h1, hhit⟩]
    · rw [if_neg (fun hc => h1 hc.1)]
      by_cases h0 : x = 0
      · rw [if_pos ⟨h0, hhit⟩, if_pos ⟨Or.inl h0, hhit⟩]
      · rw [if_neg (fun hc => h0 hc.1), if_neg (fun hc => hc.1.elim h0 h1)]
  · rw [if_neg (fun hc => hhit hc.2), if_neg (fun hc => hhit hc.2),
      if_neg (fun hc => hhit hc.2)]

/-- For an in-range row, a pixel lies in a tick segment exactly when its
row number modulo 8 is at most 4. -/
theorem tickYs_hit_iff (h y : ℕ) (hy : y < h) :
    (∃ y0 ∈ tickYs h, y0 ≤ y ∧ y ≤ y0 + 4) ↔ y % 8 ≤ 4 := by
  unfold tickYs
  constructor
  · rintro ⟨y0, hmem, h1, h2⟩
    simp only [List.mem_map, List.mem_range] at hmem
    obtain ⟨k, hk, rfl⟩ := hmem
    omega
  · intro h4
    refine ⟨(y / 8) * 8, ?_, ?_, ?_⟩
    · simp only [List.mem_map, List.mem_range]
      exact ⟨y / 8, by omega, rfl⟩
    · omega
    · omega

/-- When every child of the second pass reports a non-negative size and
every child's render succeeds, the second pass completes without error, no
matter how the reported sizes relate to the first pass or to the canvas
bounds. -/
theorem secondPass_total (flexW : ℤ) (H : ℕ) :
    ∀ (L : List WidgetI) (x : ℕ) (pm : PixMap),
      (∀ ch ∈ L, 0 ≤ (ch.layout flexW (H : ℤ)).fst ∧ 0 ≤ (ch.layout flexW (H : ℤ)).snd) →
      (∀ ch ∈ L, ∀ sub : Canvas, (ch.render sub).map (fun _ => ()) = Except.ok ()) →
      (Horizontal.secondPass flexW H L x pm).map (fun _ => ()) = Except.ok ()
  | [], x, pm, _, _ => by simp [Horizontal.secondPass, Except.map]
  | ch :: L, x, pm, hsz, hok => by
    unfold Horizontal.secondPass
    rw [if_pos (hsz ch (List.mem_cons_self ch L))]
    cases hr : ch.render (Canvas.new (ch.layout flexW (H : ℤ)).fst.toNat
        (ch.layout flexW (H : ℤ)).snd.toNat WHITE) with
    | error e =>
      exfalso
      have hko := hok ch (List.mem_cons_self ch L)
        (Canvas.new (ch.layout flexW (H : ℤ)).fst.toNat
          (ch.layout flexW (H : ℤ)).snd.toNat WHITE)
      rw [hr] at hko
      simp [Except.map] at hko
    | ok spm =>
      have hrec := secondPass_total flexW H L
        (x + (ch.layout flexW (H : ℤ)).fst.toNat)
        (pasteAt pm ⟨(ch.layout flexW (H : ℤ)).fst.toNat,
          (ch.layout flexW (H : ℤ)).snd.toNat, spm⟩ x 0)
        (fun c hc => hsz c (List.mem_cons_of_mem ch hc))
        (fun c hc => hok c (List.mem_cons_of_mem ch hc))
      simpa using hrec

/- ### Claim theorems -/

/-- C1 (amended): `Horizontal.render` follows the claimed allocation recipe
exactly, with the division `spareWidth / numFlexible` read as Python's
`int()` truncation toward zero (which agrees with floor whenever the spare
width is non-negative) instead of floor: offeredChildWidth is
`⌊W / N⌋`, a child is flexible iff it desires exactly the offer, otherwise
its desire is subtracted from a spare width starting at `W`; every child is
then laid out a second time at the flexible width, rendered into a fresh
sub-canvas of exactly its second-pass size, and pasted left-to-right at a
cumulative x cursor.  In particular the claim's example holds: a fixed
child of width 20 and a flexible child, offered 100 by 50, are allocated
widths 20 and 80. -/
theorem horizontal_render_matches_trunc_recipe :
    (∀ (self : Horizontal) (c : Canvas),
        self.render c = recipeRender Int.tdiv self.children c)
    ∧ Horizontal.allocWidths [fixedTwenty, flexChild] 100 50 = [20, 80] := by
  refine ⟨fun self c => ?_, by decide⟩
  unfold Horizontal.render recipeRender
  by_cases hn : self.children.length = 0
  · rw [if_pos hn, if_pos hn]
  · rw [if_neg hn, if_neg hn, secondPass_eq_collect, negotiate_eq_recipe]

/-- C1 (counterexample): the claim's recipe with genuine floor division
disagrees with the code.  With one fixed square child (the `QRCode`/`SVG`
layout) and three flexible children on a 10-by-12 canvas, the spare width
is `10 - 12 = -2` over 3 flexible children: the code computes
`int(-2 / 3) = 0` and completes, while `floor(-2 / 3) = -1` makes the floor
recipe attempt a sub-canvas of negative width and fail. -/
theorem horizontal_floor_recipe_refuted :
    ((Horizontal.mk [squareChild, flexChild, flexChild, flexChild]).render
        (Canvas.new 10 12 WHITE)).map (fun _ => ()) = Except.ok ()
    ∧ (recipeRender Int.fdiv [squareChild, flexChild, flexChild, flexChild]
        (Canvas.new 10 12 WHITE)).map (fun _ => ()) = Except.error RenderErr.badSize
    ∧ Horizontal.negotiate [squareChild, flexChild, flexChild, flexChild] 10 12 = 0
    ∧ recipeFlexWidth Int.fdiv [squareChild, flexChild, flexChild, flexChild] 10 12
        = -1 :=
  ⟨rfl, rfl, by decide, by decide⟩

/-- C2: when every child of a `Horizontal` is flexible under the offer
`⌊W / N⌋`, the allocated widths sum to at least `W - (N - 1)` and at most
`W`, and any two allocated widths differ by at most one pixel. -/
theorem horizontal_all_flexible_allocation (children : List WidgetI) (W H : ℕ)
    (hne : children ≠ [])
    (hflex : ∀ ch ∈ children,
      (ch.layout (Horizontal.offeredChildWidth W children.length) (H : ℤ)).fst
        = Horizontal.offeredChildWidth W children.length) :
    ((W : ℤ) - ((children.length : ℤ) - 1) ≤ (Horizontal.allocWidths children W H).sum
      ∧ (Horizontal.allocWidths children W H).sum ≤ (W : ℤ))
    ∧ ∀ a ∈ Horizontal.allocWidths children W H,
        ∀ b ∈ Horizontal.allocWidths children W H, |a - b| ≤ 1 := by
  have hN : children.length ≠ 0 := fun h => hne (List.length_eq_zero.mp h)
  have hneg := negotiate_all_flex children W H hne hflex
  have halloc : ∀ a ∈ Horizontal.allocWidths children W H,
      a = Horizontal.offeredChildWidth W children.length := by
    intro a ha
    unfold Horizontal.allocWidths at ha
    obtain ⟨ch, hch, rfl⟩ := List.mem_map.mp ha
    rw [hneg]
    exact hflex ch hch
  have hlen : (Horizontal.allocWidths children W H).length = children.length :=
    List.length_map _ _
  have hrep : Horizontal.allocWidths children W H
      = List.replicate children.length (Horizontal.offeredChildWidth W children.length) := by
    have h := List.eq_replicate_of_mem halloc
    rwa [hlen] at h
  have hsum : (Horizontal.allocWidths children W H).sum
      = (children.length : ℤ) * ((W / children.length : ℕ) : ℤ) := by
    rw [hrep, List.sum_replicate, nsmul_eq_mul]
    rfl
  have hq : children.length * (W / children.length) + W % children.length = W :=
    Nat.div_add_mod W children.length
  have hqz : (children.length : ℤ) * ((W / children.length : ℕ) : ℤ)
      = (W : ℤ) - ((W % children.length : ℕ) : ℤ) := by
    push_cast
    push_cast at hq
    linarith
  have hr : W % children.length < children.length :=
    Nat.mod_lt W (Nat.pos_of_ne_zero hN)
  refine ⟨⟨?_, ?_⟩, ?_⟩
  · rw [hsum, hqz]
    omega
  · rw [hsum, hqz]
    omega
  · intro a ha b hb
    rw [halloc a ha, halloc b hb]
    simp

/-- C3: `QRCode.layout` and `SVG.layout` return a square `(h, h)` sized to
the offered height, for every payload and padding, every offered width and
every positive offered height. -/
theorem matrixcode_vectoricon_layout_square (q : QRCode) (s : SVG) (w h : ℤ)
    (hh : 0 < h) : q.layout w h = (h, h) ∧ s.layout w h = (h, h) :=
  ⟨rfl, rfl⟩

/-- C3 (witness): a concrete instantiation with padding 5, offer 3 by 7. -/
theorem matrixcode_vectoricon_layout_square_witness :
    QRCode.layout ⟨"payload", 5⟩ 3 7 = (7, 7) ∧ SVG.layout ⟨"icon.svg", 5⟩ 3 7 = (7, 7) :=
  matrixcode_vectoricon_layout_square ⟨"payload", 5⟩ ⟨"icon.svg", 5⟩ 3 7 (by decide)

/-- C4 (amended): after `Label.render` on a white canvas of the label's
size, the two outermost columns contain exactly the tick pattern with
five-pixel segments: ink where `y % 8 ≤ 4` (PIL's `line` includes both
endpoints of `[(x, y), (x, y + 4)]`) and paper elsewhere, across the full
height, for every child widget whose render succeeds. -/
theorem label_edge_columns_tick_pattern (self : Label) (x y : ℕ)
    (hw : 2 ≤ self.width)
    (hc : ∃ cpm, self.child.render (Canvas.new (self.width - 2) self.height WHITE)
      = Except.ok cpm)
    (hy : y < self.height) (hx : x = 0 ∨ x = self.width - 1) :
    (Label.render self (Canvas.new self.width self.height WHITE)).map
        (fun pm => pm x y)
      = Except.ok (if y % 8 ≤ 4 then BLACK else WHITE) := by
  obtain ⟨cpm, hc⟩ := hc
  simp only [Label.render]
  rw [if_neg (by omega), hc]
  simp only [Except.map]
  congr 1
  have hregion : ¬ (1 ≤ x ∧ x < 1 + (self.width - 2) ∧ 0 ≤ y ∧ y < 0 + self.height) := by
    rcases hx with rfl | rfl
    · rintro ⟨h1, -⟩
      omega
    · rintro ⟨h1, h2, -⟩
      omega
  unfold pasteAt
  rw [if_neg hregion, drawMarkers_pix]
  by_cases h48 : y % 8 ≤ 4
  · rw [if_pos ⟨hx, (tickYs_hit_iff self.height y hy).mpr h48⟩, if_pos h48]
  · rw [if_neg (fun hcon => h48 ((tickYs_hit_iff self.height y hy).mp hcon.2)),
      if_neg h48]
    rfl

/-- C4 (witness): on a 10 by 10 label with a no-op child, the theorem
evaluated at the edge pixel (0, 5), a paper row of the pattern. -/
theorem label_edge_columns_tick_pattern_witness :
    (Label.render ⟨10, 10, Widget.base⟩ (Canvas.new 10 10 WHITE)).map
        (fun pm => pm 0 5)
      = Except.ok (if 5 % 8 ≤ 4 then BLACK else WHITE) :=
  label_edge_columns_tick_pattern ⟨10, 10, Widget.base⟩ 0 5 (by decide)
    ⟨(Canvas.new (10 - 2) 10 WHITE).pix, rfl⟩ (by decide) (Or.inl rfl)

/-- C4 (counterexample): the claim's pattern `y % 8 < 4` is wrong at row 4:
PIL's endpoint-inclusive `line` makes pixel (0, 4) ink, while the claim
classifies row 4 (`4 % 8 = 4`, not `< 4`) as paper. -/
theorem label_tick_pattern_refuted :
    (Label.render ⟨10, 10, Widget.base⟩ (Canvas.new 10 10 WHITE)).map
        (fun pm => pm 0 4)
      = Except.ok BLACK
    ∧ ¬ (4 % 8 < 4) ∧ BLACK ≠ WHITE :=
  ⟨rfl, by decide, by decide⟩

/-- C5: `Label.render` renders its single child into a fresh white canvas
of size `(width - 2, height)` — inset one pixel on the left and right,
height unchanged — and pastes that child canvas back at offset `(1, 0)`
over the marker-decorated label canvas. -/
theorem label_child_inset_paste (self : Label) (c : Canvas) (cpm : PixMap)
    (hw : 2 ≤ self.width)
    (hc : self.child.render (Canvas.new (self.width - 2) self.height WHITE)
      = Except.ok cpm) :
    Label.render self c
      = Except.ok (pasteAt (drawMarkers c self.width self.height).pix
          ⟨self.width - 2, self.height, cpm⟩ 1 0) := by
  simp only [Label.render]
  rw [if_neg (by omega), hc]

/-- C5 (witness): the 10 by 10 label with the no-op base widget child. -/
theorem label_child_inset_paste_witness :
    Label.render ⟨10, 10, Widget.base⟩ (Canvas.new 10 10 WHITE)
      = Except.ok (pasteAt (drawMarkers (Canvas.new 10 10 WHITE) 10 10).pix
          ⟨10 - 2, 10, (Canvas.new (10 - 2) 10 WHITE).pix⟩ 1 0) :=
  label_child_inset_paste ⟨10, 10, Widget.base⟩ (Canvas.new 10 10 WHITE)
    (Canvas.new (10 - 2) 10 WHITE).pix (by decide) rfl

/-- C6: `Vertical.render` equals the claim's recipe — every child receives
a fresh sub-canvas of size `(W, ⌊H / N⌋)` with no flexible/fixed
negotiation, and child `i` is pasted at vertical offset `i * ⌊H / N⌋`, top
to bottom with no gap — and the claim's examples hold: offered height 90
with 3 children gives each child height 30, offered height 91 also gives
30, consuming 90 pixels. -/
theorem vertical_render_matches_recipe :
    (∀ (self : Vertical) (c : Canvas), self.render c = recipeRenderV self.children c)
    ∧ Vertical.childHeight 90 3 = 30 ∧ Vertical.childHeight 91 3 = 30
    ∧ 3 * Vertical.childHeight 91 3 = 90 := by
  refine ⟨fun self c => ?_, by decide, by decide, by decide⟩
  unfold Vertical.render recipeRenderV
  by_cases hn : self.children.length = 0
  · rw [if_pos hn, if_pos hn]
  · rw [if_neg hn, if_neg hn, vloop_eq_collect]

/-- C7 (amended): the unit conversion truncates instead of rounding: for
every length below 127 millimetres — in particular every length the
program uses — `px(l)` equals `⌊180 * l / 25.4⌋ = 900 * l / 127` in
integer (floor) division.  The bound 127 is where the source's truncated
decimal constant `0.03937007874015748` first falls short of `1 / 25.4`. -/
theorem px_truncates_small : ∀ l : ℕ, l < 127 → px l = 900 * l / 127 := by
  decide

/-- C7 (witness): at the label width of 36 millimetres. -/
theorem px_truncates_small_witness : px 36 = 900 * 36 / 127 :=
  px_truncates_small 36 (by decide)

/-- C7 (counterexample): `px` does not round to nearest: at 6 millimetres
the exact value is `42.519...`, the code truncates to 42 while rounding
gives 43. -/
theorem px_round_refuted :
    px 6 = 42 ∧ pxSpecRound 6 = 43 ∧ ((px 6 : ℤ) ≠ pxSpecRound 6) := by
  have h42 : px 6 = 42 := by decide
  have h43 : pxSpecRound 6 = 43 := by norm_num [pxSpecRound, round_eq, DPI]
  refine ⟨h42, h43, fun hcon => ?_⟩
  rw [h42, h43] at hcon
  exact absurd hcon (by decide)

/-- C8 (amended): the conversion of the 36-millimetre label width is 255
pixels: `int(180 * 36 * 0.03937007874015748) = int(255.118...) = 255`. -/
theorem px_label_width_value : px 36 = 255 := by decide

/-- C8 (counterexample): the claimed regression-anchor value 254 is not
the value of the code's expression. -/
theorem px_label_width_refuted : px 36 ≠ 254 := by decide

/-- C9 (amended): `Horizontal.render` performs no layout validation: as
long as the children list is non-empty, every second-pass size is
non-negative and every child's render succeeds, the render completes
without raising any error — even when a child's second-pass size differs
from its first-pass size or a paste would exceed the destination bounds
(PIL clips such pastes silently); no `LayoutViolationError` exists in the
code. -/
theorem horizontal_no_layout_violation (self : Horizontal) (c : Canvas)
    (hne : self.children ≠ [])
    (hsz : ∀ ch ∈ self.children,
      0 ≤ (ch.layout (Horizontal.negotiate self.children c.width c.height)
            (c.height : ℤ)).fst
      ∧ 0 ≤ (ch.layout (Horizontal.negotiate self.children c.width c.height)
            (c.height : ℤ)).snd)
    (hok : ∀ ch ∈ self.children, ∀ sub : Canvas,
      (ch.render sub).map (fun _ => ()) = Except.ok ()) :
    (self.render c).map (fun _ => ()) = Except.ok () := by
  unfold Horizontal.render
  rw [if_neg (fun h => hne (List.length_eq_zero.mp h))]
  exact secondPass_total _ _ _ _ _ hsz hok

/-- C9 (witness): the mismatch scenario completes: a child growing its
offer by one is re-measured differently in the second pass, yet the render
returns successfully. -/
theorem horizontal_no_layout_violation_witness :
    ((Horizontal.mk [growChild, flexChild]).render (Canvas.new 10 7 WHITE)).map
        (fun _ => ()) = Except.ok () :=
  horizontal_no_layout_violation (Horizontal.mk [growChild, flexChild])
    (Canvas.new 10 7 WHITE) (List.cons_ne_nil _ _) (by decide)
    (by
      intro ch hch sub
      rcases List.mem_cons.mp hch with rfl | hch
      · rfl
      rcases List.mem_cons.mp hch with rfl | hch
      · rfl
      exact absurd hch (List.not_mem_nil ch))

/-- C9 (counterexample): no error is raised where the claim demands one.
First scenario: `growChild` is measured at width 6 in the first pass but
at width 5 in the second pass — a second-pass mismatch — and the render
completes.  Second scenario: a single fixed 12-wide child on a 10-wide
canvas pastes beyond the destination bounds and the render still
completes. -/
theorem horizontal_layout_violation_refuted :
    ((Horizontal.mk [growChild, flexChild]).render (Canvas.new 10 7 WHITE)).map
        (fun _ => ()) = Except.ok ()
    ∧ growChild.layout (Horizontal.negotiate [growChild, flexChild] 10 7) (7 : ℤ)
        ≠ growChild.layout (Horizontal.offeredChildWidth 10 2) (7 : ℤ)
    ∧ ((Horizontal.mk [fixedTwelve]).render (Canvas.new 10 7 WHITE)).map
        (fun _ => ()) = Except.ok ()
    ∧ (fixedTwelve.layout (Horizontal.negotiate [fixedTwelve] 10 7) (7 : ℤ)).fst > 10 :=
  ⟨rfl, by decide, rfl, by decide⟩

/-- C10: rendering a `Horizontal` or a `Vertical` with an empty children
list fails with the division-by-zero error from computing the per-child
share `int(size / len(children))`. -/
theorem empty_children_division_error : ∀ c : Canvas,
    (Horizontal.mk []).render c = Except.error RenderErr.divByZero
    ∧ (Vertical.mk []).render c = Except.error RenderErr.divByZero :=
  fun _ => ⟨rfl, rfl⟩

/-- C2 (witness): two flexible children sharing width 7: each receives
`⌊7 / 2⌋ = 3`, summing to 6, within one pixel of slack per extra child. -/
theorem horizontal_all_flexible_allocation_witness :
    ((7 : ℕ) : ℤ) - ((([flexChild, flexChild] : List WidgetI).length : ℤ) - 1)
        ≤ (Horizontal.allocWidths [flexChild, flexChild] 7 5).sum
      ∧ (Horizontal.allocWidths [flexChild, flexChild] 7 5).sum ≤ ((7 : ℕ) : ℤ) :=
  (horizontal_all_flexible_allocation [flexChild, flexChild] 7 5
    (List.cons_ne_nil _ _)
    (by
      intro ch hch
      rcases List.mem_cons.mp hch with rfl | hch
      · rfl
      rcases List.mem_cons.mp hch with rfl | hch
      · rfl
      exact absurd hch (List.not_mem_nil ch))).1
